import Mathlib

/-!
Verification of `sweeper` (src/src/main.rs): a TTL-enforcement daemon that
watches `setxattr` calls for the `user.expire_at` extended attribute, records
scheduled deletions in a SQLite table, and deletes the files when due.

The development shallowly embeds the userspace pipeline:
- the fixed-layout wire record `event_t` (three 50-byte C-string fields) and
  the decoding callback `Sweeper::on_event` (main.rs lines 204-238);
- the schedule store operations executed through SQL in `Sweeper::process`
  and `clean_up` (INSERT / SELECT where due / DELETE by id);
- the cleanup pass over due records (`clean_up`, lines 250-280) and the
  file-deletion helper `delete` (lines 241-248);
- the three cooperative polling loops guarded by the shared `runnable` flag.

Rust panics (every `.unwrap()` and the byte-slice `&path[0..1]`) are modelled
as explicit outcomes, never as silently-skipped branches.
-/

/-- Width of each `event_t` field: `char path[50]; char name[50]; char value[50]`
(main.rs lines 14-19 and the BPF-side struct, lines 132-136). -/
def FIELD_W : Nat := 50

/-- Bytes read by `CStr::from_ptr` starting at offset `off` of the perf buffer:
the scan runs from `off` until the first zero byte, with no bound at the
field's edge (main.rs lines 209-217 cast a field pointer and scan for the
terminator).  A buffer with no zero byte at all would make the real code read
past the allocation; the model truncates that read at the end of the buffer. -/
def cstrBytes (buf : List Nat) (off : Nat) : List Nat :=
  (buf.drop off).takeWhile (fun b => b ≠ 0)

/-- The bounded scan demanded by the specification (spec.md §4.3): locate the
terminator within the field's own 50 bytes and, if it is absent, treat the
full field width as the string.  Modelled from the spec's words, for
comparison with `cstrBytes` which embeds the source. -/
def cstrBytesBounded (buf : List Nat) (off : Nat) : List Nat :=
  ((buf.drop off).take FIELD_W).takeWhile (fun b => b ≠ 0)

/-- UTF-8 decoding worker; `fuel` bounds the recursion (call with the list
length).  Implements the validation performed by `str::from_utf8` behind
`CStr::to_str`: continuation bytes in `0x80..0xBF`, overlong encodings,
surrogates and values above `0x10FFFF` are all rejected. -/
def utf8DecodeAux : Nat → List Nat → Option (List Char)
  | _, [] => some []
  | 0, _ :: _ => none
  | Nat.succ fuel, b1 :: rest =>
    if b1 < 0x80 then
      (utf8DecodeAux fuel rest).map (fun cs => Char.ofNat b1 :: cs)
    else if b1 < 0xC2 then
      none
    else if b1 < 0xE0 then
      match rest with
      | b2 :: rest2 =>
        if 0x80 ≤ b2 ∧ b2 < 0xC0 then
          (utf8DecodeAux fuel rest2).map
            (fun cs => Char.ofNat ((b1 - 0xC0) * 64 + (b2 - 0x80)) :: cs)
        else none
      | [] => none
    else if b1 < 0xF0 then
      match rest with
      | b2 :: b3 :: rest3 =>
        if 0x80 ≤ b2 ∧ b2 < 0xC0 ∧ 0x80 ≤ b3 ∧ b3 < 0xC0 then
          let cp := (b1 - 0xE0) * 4096 + (b2 - 0x80) * 64 + (b3 - 0x80)
          if 0x800 ≤ cp ∧ ¬ (0xD800 ≤ cp ∧ cp ≤ 0xDFFF) then
            (utf8DecodeAux fuel rest3).map (fun cs => Char.ofNat cp :: cs)
          else none
        else none
      | _ => none
    else if b1 < 0xF5 then
      match rest with
      | b2 :: b3 :: b4 :: rest4 =>
        if 0x80 ≤ b2 ∧ b2 < 0xC0 ∧ 0x80 ≤ b3 ∧ b3 < 0xC0 ∧ 0x80 ≤ b4 ∧ b4 < 0xC0 then
          let cp := (b1 - 0xF0) * 262144 + (b2 - 0x80) * 4096 + (b3 - 0x80) * 64 + (b4 - 0x80)
          if 0x10000 ≤ cp ∧ cp ≤ 0x10FFFF then
            (utf8DecodeAux fuel rest4).map (fun cs => Char.ofNat cp :: cs)
          else none
        else none
      | _ => none
    else none

/-- UTF-8 validation of a byte list, as done by `CStr::to_str` (main.rs lines
209-217): `some` of the character list when the bytes are valid UTF-8,
`none` otherwise (the code then calls `.unwrap()` on the error). -/
def utf8Decode (l : List Nat) : Option (List Char) :=
  utf8DecodeAux l.length l

/-- Value of a decimal digit, `none` for any other character. -/
def decDigit (c : Char) : Option Nat :=
  if '0' ≤ c ∧ c ≤ '9' then some (c.toNat - '0'.toNat) else none

/-- Accumulate decimal digits; `none` on the first non-digit character. -/
def decNatCore : List Nat → List Char → Option Nat
  | acc, [] => acc.foldl (fun a d => a * 10 + d) 0 |> some
  | acc, c :: cs =>
    match decDigit c with
    | some d => decNatCore (acc ++ [d]) cs
    | none => none

/-- A non-empty all-digit string read as a natural number. -/
def decNat (s : List Char) : Option Nat :=
  match s with
  | [] => none
  | _ => decNatCore [] s

/-- The grammar of Rust integer literals accepted by `str::parse`: an optional
`+` or `-` sign followed by at least one decimal digit, evaluated without any
range restriction. -/
def intLiteral (s : List Char) : Option Int :=
  match s with
  | '+' :: rest => (decNat rest).map (fun n => (n : Int))
  | '-' :: rest => (decNat rest).map (fun n => -(n : Int))
  | _ => (decNat s).map (fun n => (n : Int))

/-- `value.parse::<i32>()` (main.rs line 228): the integer-literal grammar plus
the 32-bit signed range check (out-of-range input is an overflow error). -/
def parseI32 (s : List Char) : Option Int :=
  match intLiteral s with
  | some v => if -2147483648 ≤ v ∧ v ≤ 2147483647 then some v else none
  | none => none

/-- The decoded application event (struct `Event`, main.rs lines 21-27):
`id` is `None` until the store assigns one, `expire_at` is an `i32`. -/
structure Event where
  id : Option Int
  path : List Char
  name : List Char
  expire_at : Int
deriving DecidableEq, Repr

/-- The attribute name the decoder filters on (main.rs line 221). -/
def expireAtName : List Char := "user.expire_at".data

/-- The byte-slice check `&path[0..1]` (main.rs line 222): `some c` when the
first character is a single UTF-8 byte (the slice then equals that character),
`none` when the slice panics — the string is empty (range out of bounds) or
byte index 1 falls inside a multi-byte character (not a char boundary). -/
def sliceFirstByte : List Char → Option Char
  | [] => none
  | c :: _ => if c.utf8Size = 1 then some c else none

/-- Outcome of one invocation of the `Sweeper::on_event` callback on a perf
buffer. `panicked` stands for a Rust panic unwinding out of the callback
(`to_str().unwrap()`, `parse().unwrap()`, or the slice `&path[0..1]`). -/
inductive DecodeResult where
  | scheduled (e : Event)
  | rejectedName
  | rejectedRelative
  | panicked
deriving DecidableEq, Repr

/-- `Sweeper::on_event` (main.rs lines 204-238) on the raw perf buffer: read
the three C strings at offsets 0, 50 and 100, validate UTF-8 (unwrap), then
require `name == "user.expire_at"`, `&path[0..1] == "/"`, and parse the value
as `i32` (unwrap); on success send the `Event` with `id = None`. -/
def on_event (buf : List Nat) : DecodeResult :=
  match utf8Decode (cstrBytes buf 0), utf8Decode (cstrBytes buf 50),
        utf8Decode (cstrBytes buf 100) with
  | some path, some name, some value =>
    if name = expireAtName then
      match sliceFirstByte path with
      | none => DecodeResult.panicked
      | some c =>
        if c = '/' then
          match parseI32 value with
          | some v => DecodeResult.scheduled ⟨none, path, name, v⟩
          | none => DecodeResult.panicked
        else DecodeResult.rejectedRelative
    else DecodeResult.rejectedName
  | _, _, _ => DecodeResult.panicked

/-- UTF-8 encoding of one character (used to build concrete wire buffers). -/
def charBytes (c : Char) : List Nat :=
  let n := c.toNat
  if n < 0x80 then [n]
  else if n < 0x800 then [0xC0 + n / 64, 0x80 + n % 64]
  else if n < 0x10000 then [0xE0 + n / 4096, 0x80 + n / 64 % 64, 0x80 + n % 64]
  else [0xF0 + n / 262144, 0x80 + n / 4096 % 64, 0x80 + n / 64 % 64, 0x80 + n % 64]

/-- UTF-8 encoding of a string. -/
def strBytes (s : List Char) : List Nat :=
  (s.map charBytes).flatten

/-- A field as the BPF program produces it: the bytes followed by zero padding
up to the 50-byte width (`struct event_t event = {0}` plus
`bpf_probe_read_user_str`, main.rs lines 143-148). -/
def padField (l : List Nat) : List Nat :=
  l ++ List.replicate (FIELD_W - l.length) 0

/-- A whole 150-byte wire buffer from the three field contents. -/
def mkBuf (p n v : List Nat) : List Nat :=
  padField p ++ padField n ++ padField v

/-- The `sweeper` SQLite table (created in `setup_db`, main.rs lines 54-67):
`id INTEGER PRIMARY KEY` is store-assigned (SQLite rowid, strictly increasing
for a table that only grows through this program's INSERTs), the other columns
come from the event.  `rows` keeps insertion order; `nextId` is the next rowid. -/
structure Store where
  nextId : Int
  rows : List Event
deriving DecidableEq, Repr

/-- `INSERT INTO sweeper (path, name, expire_at) VALUES (?1, ?2, ?3)`
(main.rs lines 88-92): append a row with a fresh id. -/
def Store.insert (s : Store) (e : Event) : Store :=
  ⟨s.nextId + 1, s.rows ++ [⟨some s.nextId, e.path, e.name, e.expire_at⟩]⟩

/-- `SELECT * from sweeper where expire_at <= strftime(%s, now)` (main.rs
lines 254-267): every row whose `expire_at` is at or before the current time.
SQLite compares the TEXT result of `strftime` against the NUMERIC-affinity
`expire_at` column numerically, so the comparison is the integer one. -/
def Store.list_due (s : Store) (now : Int) : List Event :=
  s.rows.filter (fun r => r.expire_at ≤ now)

/-- `DELETE FROM sweeper WHERE id = ?1` (main.rs lines 273-274). -/
def Store.remove (s : Store) (id : Option Int) : Store :=
  ⟨s.nextId, s.rows.filter (fun r => ¬ r.id = id)⟩

/-- Why a file deletion can fail, for modelling `fs::remove_file`. -/
inductive FsError where
  | notFound
  | permissionDenied
  | ioError
deriving DecidableEq, Repr

/-- Observable side effects of the pipeline's threads, used to trace what the
loops do and in which order. -/
inductive Op where
  | removeRecord (id : Option Int)
  | deleteFile (path : List Char)
  | insertRecord (e : Event)
  | panic
deriving DecidableEq, Repr

/-- `delete` (main.rs lines 241-248): `fs::remove_file(path).unwrap()` —
`some ()` when the filesystem removes the file, `none` when removal fails for
ANY reason (the unwrap turns every error, missing file included, into a
panic). `fsFail path` is the filesystem's answer for `path`. -/
def delete (fsFail : List Char → Option FsError) (e : Event) : Option Unit :=
  match fsFail e.path with
  | none => some ()
  | some _ => none

/-- The per-record body of one cleanup pass (main.rs lines 269-276): for each
due record, FIRST `DELETE FROM sweeper WHERE id = ...`, THEN `delete(&thing)
.unwrap()`.  Returns the store after the pass, whether the thread panicked
(a failed deletion unwraps), and the trace of operations in program order. -/
def cleanUpRecords (fsFail : List Char → Option FsError) :
    List Event → Store → Store × Bool × List Op
  | [], st => (st, false, [])
  | r :: rest, st =>
    let st' := st.remove r.id
    match fsFail r.path with
    | none =>
      let out := cleanUpRecords fsFail rest st'
      (out.1, out.2.1, Op.removeRecord r.id :: Op.deleteFile r.path :: out.2.2)
    | some _ => (st', true, [Op.removeRecord r.id, Op.panic])

/-- One iteration of the `clean_up` loop body (main.rs lines 253-279): query
the due records, then process each with remove-then-delete. -/
def cleanupPass (fsFail : List Char → Option FsError) (now : Int) (st : Store) :
    Store × Bool × List Op :=
  cleanUpRecords fsFail (st.list_due now) st

/-- The shared cooperative loop skeleton used by all three threads
(`while runnable.load(Ordering::SeqCst) { body }`, main.rs lines 85-98,
198-200 and 253-279): before the `n`-th iteration the loop loads the
`runnable` flag (`flag n` is the value it reads); when the flag is false it
exits at once, running no further body.  `step` is one iteration's effect on
the thread's state together with the store/filesystem operations it performs;
`fuel` bounds the unrolling. -/
def whileRunnable {σ : Type} (flag : Nat → Bool) (step : σ → σ × List Op) :
    Nat → Nat → σ → σ × List Op
  | 0, _, s => (s, [])
  | fuel + 1, n, s =>
    if flag n then
      let fst := step s
      let rest := whileRunnable flag step fuel (n + 1) fst.1
      (rest.1, fst.2 ++ rest.2)
    else (s, [])

/-- `i` iterations of a loop body, with the operations they perform. -/
def iterSteps {σ : Type} (step : σ → σ × List Op) : Nat → σ → σ × List Op
  | 0, s => (s, [])
  | i + 1, s =>
    let fst := step s
    let rest := iterSteps step i fst.1
    (rest.1, fst.2 ++ rest.2)

/-- State of the persistence thread: the channel's pending queue (FIFO) and
the store it writes to. -/
structure PersistState where
  queue : List Event
  store : Store
deriving Repr

/-- One iteration of `Sweeper::process` (main.rs lines 85-98): `try_recv` —
pop the front of the channel queue if any — and on `Ok(event)` run the
INSERT; on `Err` do nothing. -/
def persistStep (st : PersistState) : PersistState × List Op :=
  match st.queue with
  | [] => (st, [])
  | e :: rest => (⟨rest, st.store.insert e⟩, [Op.insertRecord e])

/-- One iteration of the cleanup loop (`clean_up`, main.rs lines 253-279)
as a state transformer; `now` is the scan's current time. -/
def cleanupStep (fsFail : List Char → Option FsError) (now : Int) (st : Store) :
    Store × List Op :=
  let out := cleanupPass fsFail now st
  (out.1, out.2.2)

/-- One iteration of the capture poll loop (`run_bpf`, main.rs lines 198-200):
`perf_buffer.poll(200)` runs the `on_event` callback over the batch of pending
wire buffers, and each successfully decoded event is sent on the channel.
State: the stream of not-yet-polled batches, and the events sent so far. -/
def captureStep (st : List (List (List Nat)) × List Event) :
    (List (List (List Nat)) × List Event) × List Op :=
  match st.1 with
  | [] => ((st.1, st.2), [])
  | batch :: rest =>
    let evs := batch.filterMap (fun b =>
      match on_event b with
      | DecodeResult.scheduled e => some e
      | _ => none)
    ((rest, st.2 ++ evs), evs.map Op.insertRecord)

/-- An interleaved run of the capture callback (producer) and the persistence
thread (consumer): `send e` is `tx.send(event)` from `on_event` (main.rs lines
224-230), `drain` is one `try_recv`-and-INSERT iteration of `process`
(main.rs lines 86-95).  State: the log of sent events in send order, the
channel queue (std mpsc is FIFO: send appends, receive takes the front), and
the store. -/
inductive PipeAct where
  | send (e : Event)
  | drain
deriving Repr

/-- Run a sequence of interleaved pipeline actions. -/
def pipeRun : List PipeAct → List Event × PersistState → List Event × PersistState
  | [], st => st
  | PipeAct.send e :: rest, (sent, ps) =>
    pipeRun rest (sent ++ [e], ⟨ps.queue ++ [e], ps.store⟩)
  | PipeAct.drain :: rest, (sent, ps) => pipeRun rest (sent, (persistStep ps).1)

/-- The store-visible content of an event: everything but the id. -/
def content (e : Event) : List Char × List Char × Int :=
  (e.path, e.name, e.expire_at)

/-- Does the character list begin with the character `/`?  This is the spec's
"path starts with /"; the code instead compares the byte slice `&path[0..1]`
to `"/"`. -/
def startsWithSlash : List Char → Bool
  | [] => false
  | c :: _ => c == '/'

/-- The persistence-thread loop (`Sweeper::process`, main.rs lines 82-99):
the cooperative skeleton instantiated with `persistStep`. -/
def processLoop (flag : Nat → Bool) (fuel : Nat) (ps : PersistState) :
    PersistState × List Op :=
  whileRunnable flag persistStep fuel 0 ps

/-- The cleanup-thread loop (`clean_up`, main.rs lines 250-280). -/
def cleanupLoop (fsFail : List Char → Option FsError) (now : Int)
    (flag : Nat → Bool) (fuel : Nat) (st : Store) : Store × List Op :=
  whileRunnable flag (cleanupStep fsFail now) fuel 0 st

/-- The capture poll loop (`Sweeper::run_bpf`, main.rs lines 198-200). -/
def captureLoop (flag : Nat → Bool) (fuel : Nat)
    (cap : List (List (List Nat)) × List Event) :
    (List (List (List Nat)) × List Event) × List Op :=
  whileRunnable flag captureStep fuel 0 cap

/-- A one-record store with a record due at time 5 (id 1, path `/a`). -/
def dueStore1 : Store :=
  ⟨2, [⟨some 1, "/a".data, expireAtName, 5⟩]⟩

/-- Wire buffer whose path field is not valid UTF-8 (first byte `0xFF`). -/
def c2BadUtf8Buf : List Nat :=
  mkBuf [255] (strBytes expireAtName) (strBytes "5".data)

/-- Wire buffer whose attribute value is not a base-10 integer. -/
def c2BadIntBuf : List Nat :=
  mkBuf (strBytes "/a".data) (strBytes expireAtName) (strBytes "abc".data)

/-- A two-record store used to witness the `list_due` characterisation. -/
def c5Store : Store :=
  ⟨3, [⟨some 1, "/a".data, expireAtName, 5⟩, ⟨some 2, "/b".data, expireAtName, 9⟩]⟩

/-- The first record of `c5Store`. -/
def c5rec : Event := ⟨some 1, "/a".data, expireAtName, 5⟩

/-- The second record of `c5Store`. -/
def c5rec2 : Event := ⟨some 2, "/b".data, expireAtName, 9⟩

/-- A wire buffer that decodes successfully: path `/a`, the expected attribute
name, value `7`. -/
def c4Buf : List Nat :=
  mkBuf (strBytes "/a".data) (strBytes expireAtName) (strBytes "7".data)

/-- Wire buffer with an empty path field and the expected attribute name. -/
def c9EmptyPathBuf : List Nat :=
  mkBuf [] (strBytes expireAtName) (strBytes "5".data)

/-- A fully terminated buffer: every field ends in a zero byte. -/
def c6TermBuf : List Nat :=
  mkBuf (strBytes "/b".data) (strBytes expireAtName) (strBytes "9".data)

/-- A flag that is true for the first two checks and false from then on
(the ctrl-c handler flips `runnable` once, main.rs lines 290-295). -/
def c7Flag : Nat → Bool := fun n => decide (n < 2)

/-- C1: the claim says the cleanup loop deletes the file first and removes the
record only afterwards, so that a failed deletion leaves the record to be
retried by the next `list_due` scan.  The code does the opposite: for the due
record of `dueStore1` processed at time 10 with a deletion that fails with a
permission error, the operation trace starts with the record removal, the
thread then panics on `delete(..).unwrap()`, and the record is already gone
from the store — the next `list_due(10)` scan is empty, so the attempt is
never retried.  Even on the success path the removal precedes the deletion. -/
theorem c1_remove_precedes_delete :
    (cleanupPass (fun _ => some FsError.permissionDenied) 10 dueStore1).2.2 =
      [Op.removeRecord (some 1), Op.panic] ∧
    ((cleanupPass (fun _ => some FsError.permissionDenied) 10 dueStore1).1).list_due 10
      = [] ∧
    (cleanupPass (fun _ => none) 10 dueStore1).2.2 =
      [Op.removeRecord (some 1), Op.deleteFile "/a".data] := by
  decide

/-- C2: the claim says a field that is not valid UTF-8, or an attribute value
that does not parse as an integer, makes the decoder drop the record and
return normally.  The code instead calls `.unwrap()` on `to_str` and on
`parse::<i32>` (main.rs lines 209-217 and 228), so both inputs panic, and the
panic unwinds out of the callback instead of being contained in the loop
iteration. -/
theorem c2_decoder_panics_on_bad_input :
    on_event c2BadUtf8Buf = DecodeResult.panicked ∧
    on_event c2BadIntBuf = DecodeResult.panicked := by
  decide

/-- C3: the claim says a due record whose file no longer exists is treated as
already satisfied (record removed, no error), and any other deletion failure
leaves the record in place with the loop continuing.  The code panics in both
cases: `fs::remove_file(..).unwrap()` (main.rs line 246) turns the NotFound
error into a panic just like a permission error, and because the record was
already removed before the deletion attempt, the failing record is NOT left
in place. -/
theorem c3_missing_file_panics :
    (cleanupPass (fun _ => some FsError.notFound) 10 dueStore1).2.1 = true ∧
    (cleanupPass (fun _ => some FsError.permissionDenied) 10 dueStore1).2.1 = true ∧
    ((cleanupPass (fun _ => some FsError.permissionDenied) 10 dueStore1).1).rows = [] := by
  decide

/-- C5: `list_due now` returns exactly the stored records whose `expire_at`
is at or before `now`, and after `remove id` no record with that id appears
in any later `list_due` result. -/
theorem c5_list_due_exact_and_remove_absent (s : Store) (now t : Int)
    (id : Option Int) (r : Event) :
    (r ∈ s.list_due now ↔ r ∈ s.rows ∧ r.expire_at ≤ now) ∧
    (r ∈ (s.remove id).list_due t → ¬ r.id = id) := by
  constructor
  · simp [Store.list_due, List.mem_filter]
  · intro h
    simp [Store.list_due, Store.remove, List.mem_filter] at h
    tauto

/-- Witness for C5 at a concrete store: the characterisation of `list_due 7`
for the first record, and — because the second record is in
`(c5Store.remove (some 1)).list_due 9` — its id differs from the removed one. -/
theorem c5_witness :
    (c5rec ∈ c5Store.list_due 7 ↔ c5rec ∈ c5Store.rows ∧ c5rec.expire_at ≤ 7) ∧
    ¬ c5rec2.id = some 1 :=
  ⟨(c5_list_due_exact_and_remove_absent c5Store 7 9 (some 1) c5rec).1,
   (c5_list_due_exact_and_remove_absent c5Store 7 9 (some 1) c5rec2).2 (by decide)⟩

theorem sliceFirstByte_some (path : List Char) (c : Char)
    (h : sliceFirstByte path = some c) : ∃ rest, path = c :: rest ∧ c.utf8Size = 1 := by
  cases path with
  | nil => simp [sliceFirstByte] at h
  | cons d rest =>
    by_cases hd : d.utf8Size = 1
    · simp [sliceFirstByte, hd] at h
      exact ⟨rest, by rw [h], h ▸ hd⟩
    · simp [sliceFirstByte, hd] at h

theorem sliceFirstByte_none (path : List Char)
    (h : sliceFirstByte path = none) : startsWithSlash path = false := by
  cases path with
  | nil => rfl
  | cons d rest =>
    by_cases hd : d.utf8Size = 1
    · simp [sliceFirstByte, hd] at h
    · have hne : ¬ d = '/' := by
        intro he
        rw [he] at hd
        exact hd (by decide)
      simp [startsWithSlash, hne]

/-- C4: for a wire buffer whose three fields decode to valid strings, the
decoder produces a `ScheduleRequest` (sends an `Event`) exactly when the
attribute name is `user.expire_at`, the path starts with `/`, and the value
parses as an `i32`; the produced event carries the identical path and name,
the parsed value, and no id yet. -/
theorem c4_decoder_roundtrip (buf : List Nat) (path name value : List Char)
    (hp : utf8Decode (cstrBytes buf 0) = some path)
    (hn : utf8Decode (cstrBytes buf 50) = some name)
    (hv : utf8Decode (cstrBytes buf 100) = some value) :
    ((∃ e, on_event buf = DecodeResult.scheduled e) ↔
      (name = expireAtName ∧ startsWithSlash path = true ∧ (parseI32 value).isSome = true)) ∧
    (∀ e, on_event buf = DecodeResult.scheduled e →
      e.id = none ∧ e.path = path ∧ e.name = name ∧ parseI32 value = some e.expire_at) := by
  simp only [on_event, hp, hn, hv]
  by_cases hname : name = expireAtName
  · subst hname
    rw [if_pos rfl]
    cases hsl : sliceFirstByte path with
    | none =>
      have hsw := sliceFirstByte_none path hsl
      simp [hsw]
    | some c =>
      by_cases hc : c = '/'
      · subst hc
        obtain ⟨rest, hrest, hsz⟩ := sliceFirstByte_some path '/' hsl
        have hsw : startsWithSlash path = true := by
          rw [hrest]
          simp [startsWithSlash]
        cases hpv : parseI32 value with
        | none => simp [hsw]
        | some v =>
          constructor
          · simp [hsw]
          · intro e he
            have h2 : DecodeResult.scheduled ⟨none, path, expireAtName, v⟩
                = DecodeResult.scheduled e := he
            injection h2 with h3
            subst h3
            exact ⟨rfl, rfl, rfl, rfl⟩
      · have hsw : startsWithSlash path = false := by
          obtain ⟨rest, hrest, _⟩ := sliceFirstByte_some path c hsl
          rw [hrest]
          simp [startsWithSlash, hc]
        simp [hsw, hc]
  · simp [hname]

/-- Witness for C4 at a concrete buffer: the production equivalence evaluated
on `c4Buf`. -/
theorem c4_witness :
    (∃ e, on_event c4Buf = DecodeResult.scheduled e) ↔
      ("user.expire_at".data = expireAtName ∧ startsWithSlash "/a".data = true ∧
        (parseI32 "7".data).isSome = true) :=
  (c4_decoder_roundtrip c4Buf "/a".data "user.expire_at".data "7".data
    (by decide) (by decide) (by decide)).1

/-- C9: for a wire event whose fields decode to valid strings, whose attribute
name is `user.expire_at`, and whose path is empty or begins with a multi-byte
UTF-8 character, the byte slice `&path[0..1]` (main.rs line 222) panics — the
outcome is a panic, not a relative-path rejection. -/
theorem c9_path_slice_panics (buf : List Nat) (path name value : List Char)
    (hp : utf8Decode (cstrBytes buf 0) = some path)
    (hn : utf8Decode (cstrBytes buf 50) = some name)
    (hv : utf8Decode (cstrBytes buf 100) = some value)
    (hname : name = expireAtName)
    (hbad : path = [] ∨ ∃ c rest, path = c :: rest ∧ ¬ c.utf8Size = 1) :
    on_event buf = DecodeResult.panicked := by
  have hs : sliceFirstByte path = none := by
    rcases hbad with h | ⟨c, rest, hrest, hc⟩
    · rw [h]; rfl
    · rw [hrest]
      simp [sliceFirstByte, hc]
  unfold on_event
  rw [hp, hn, hv]
  simp [hname, hs]

/-- Witness for C9: the empty-path buffer panics the decoder. -/
theorem c9_witness : on_event c9EmptyPathBuf = DecodeResult.panicked :=
  c9_path_slice_panics c9EmptyPathBuf [] "user.expire_at".data "5".data
    (by decide) (by decide) (by decide) (by decide) (Or.inl rfl)

theorem parseI32_mem_range (s : List Char) (v : Int) (h : parseI32 s = some v) :
    -2147483648 ≤ v ∧ v ≤ 2147483647 := by
  unfold parseI32 at h
  split at h
  · split at h
    · injection h with h2
      subst h2
      assumption
    · cases h
  · cases h

theorem scheduled_comes_from_parse (buf : List Nat) (e : Event)
    (h : on_event buf = DecodeResult.scheduled e) :
    ∃ s, utf8Decode (cstrBytes buf 100) = some s ∧ parseI32 s = some e.expire_at := by
  unfold on_event at h
  split at h
  · rename_i path name value hpath hname hvalue
    split at h
    · split at h
      · cases h
      · split at h
        · split at h
          · rename_i v hv
            injection h with h2
            subst h2
            exact ⟨value, hvalue, hv⟩
          · cases h
        · cases h
    · cases h
  · cases h

/-- C10: `expire_at` is a 32-bit signed integer throughout.  Any attribute
value that is a valid base-10 integer literal outside `-2147483648..=2147483647`
fails `parse::<i32>` (main.rs line 228), so no `ScheduleRequest` is produced
from a buffer carrying it; moreover every scheduled event's `expire_at` lies
in the `i32` range, and the store's INSERT records that exact value. -/
theorem c10_expire_at_is_i32 (s : List Char) (n : Int) (buf : List Nat)
    (hs : intLiteral s = some n)
    (hrange : n < -2147483648 ∨ 2147483647 < n)
    (hv : utf8Decode (cstrBytes buf 100) = some s) :
    parseI32 s = none ∧
    (∀ e, ¬ on_event buf = DecodeResult.scheduled e) ∧
    (∀ buf2 e, on_event buf2 = DecodeResult.scheduled e →
      -2147483648 ≤ e.expire_at ∧ e.expire_at ≤ 2147483647) ∧
    (∀ (st : Store) (e : Event), (st.insert e).rows.map Event.expire_at
      = st.rows.map Event.expire_at ++ [e.expire_at]) := by
  have hnone : parseI32 s = none := by
    have hnr : ¬ (-2147483648 ≤ n ∧ n ≤ 2147483647) := by omega
    unfold parseI32
    rw [hs]
    simp [hnr]
  refine ⟨hnone, ?_, ?_, ?_⟩
  · intro e h
    obtain ⟨s2, hs2, hp2⟩ := scheduled_comes_from_parse buf e h
    rw [hv] at hs2
    injection hs2 with h3
    rw [← h3, hnone] at hp2
    cases hp2
  · intro buf2 e h
    obtain ⟨s2, _, hp2⟩ := scheduled_comes_from_parse buf2 e h
    exact parseI32_mem_range s2 e.expire_at hp2
  · intro st e
    simp [Store.insert]

/-- Witness for C10: the first out-of-range Unix timestamp, `"2147483648"`,
fails the `i32` parse. -/
theorem c10_witness : parseI32 "2147483648".data = none :=
  (c10_expire_at_is_i32 "2147483648".data 2147483648
    (mkBuf (strBytes "/a".data) (strBytes expireAtName) (strBytes "2147483648".data))
    (by decide) (Or.inr (by decide)) (by decide)).1

theorem takeWhile_eq_of_zero_in_take (l : List Nat) :
    ∀ n : Nat, (0 : Nat) ∈ l.take n →
      l.takeWhile (fun b => b ≠ 0) = (l.take n).takeWhile (fun b => b ≠ 0) := by
  induction l with
  | nil => intro n h; simp at h
  | cons x xs ih =>
    intro n h
    cases n with
    | zero => simp at h
    | succ m =>
      rw [List.take_succ_cons] at h ⊢
      by_cases hx : x = 0
      · subst hx
        simp [List.takeWhile_cons]
      · have h0 : (0 : Nat) ∈ xs.take m := by
          rcases List.mem_cons.mp h with h2 | h2
          · exact absurd h2.symm hx
          · exact h2
        simp only [List.takeWhile_cons]
        rw [ih m h0]

/-- C6 counterexample: a wire buffer whose path field holds 50 non-zero bytes
(no terminator in the field).  The decoder's terminator scan does not stop at
the field's 50-byte bound and does not fall back to the full field width: it
reads on into the `name` field, consuming 64 bytes, where the spec's bounded
scan reads exactly the 50-byte field. -/
theorem c6_counterexample :
    ¬ cstrBytes (mkBuf (List.replicate 50 97) (strBytes expireAtName)
        (strBytes "5".data)) 0
      = cstrBytesBounded (mkBuf (List.replicate 50 97) (strBytes expireAtName)
        (strBytes "5".data)) 0 ∧
    (cstrBytes (mkBuf (List.replicate 50 97) (strBytes expireAtName)
        (strBytes "5".data)) 0).length = 64 ∧
    (cstrBytesBounded (mkBuf (List.replicate 50 97) (strBytes expireAtName)
        (strBytes "5".data)) 0).length = 50 := by
  decide

/-- C6 amended: whenever the field does contain a zero byte within its
50-byte bound — which every buffer produced by the zero-initialized BPF
struct does — the decoder's scan stays inside the field and agrees with the
spec's bounded scan; without such a terminator the scan runs past the field
boundary (see the counterexample). -/
theorem c6_bounded_when_terminated (buf : List Nat) (off : Nat)
    (h : (0 : Nat) ∈ (buf.drop off).take FIELD_W) :
    cstrBytes buf off = cstrBytesBounded buf off :=
  takeWhile_eq_of_zero_in_take (buf.drop off) FIELD_W h

/-- Witness for C6 (amended): on a terminated path field the two scans agree. -/
theorem c6_witness : cstrBytes c6TermBuf 0 = cstrBytesBounded c6TermBuf 0 :=
  c6_bounded_when_terminated c6TermBuf 0 (by decide)

theorem whileRunnable_stops {σ : Type} (flag : Nat → Bool) (step : σ → σ × List Op) :
    ∀ (i fuel n : Nat) (s : σ), flag (n + i) = false →
      (∀ j, j < i → flag (n + j) = true) → i < fuel →
      whileRunnable flag step fuel n s = iterSteps step i s := by
  intro i
  induction i with
  | zero =>
    intro fuel n s hf _ hfuel
    cases fuel with
    | zero => omega
    | succ f =>
      have h0 : flag n = false := by simpa using hf
      simp [whileRunnable, h0, iterSteps]
  | succ k ih =>
    intro fuel n s hf hbef hfuel
    cases fuel with
    | zero => omega
    | succ f =>
      have h0 : flag n = true := by simpa using hbef 0 (Nat.succ_pos k)
      have hrec : whileRunnable flag step f (n + 1) (step s).1 = iterSteps step k (step s).1 := by
        apply ih
        · have he : n + 1 + k = n + (k + 1) := by omega
          rw [he]
          exact hf
        · intro j hj
          have he : n + 1 + j = n + (j + 1) := by omega
          rw [he]
          exact hbef (j + 1) (by omega)
        · omega
      simp [whileRunnable, h0, iterSteps, hrec]

/-- C7: once the shared `runnable` flag reads false — it is read at check `i`,
having been true at every earlier check — each of the three loops (persistence
drain, cleanup scan, capture poll) exits at that iteration boundary: the
loop's final state and its whole trace of store/filesystem operations are
exactly those of the first `i` iterations, so nothing runs after the exit. -/
theorem c7_loops_stop_on_flag (flag : Nat → Bool) (i fuel : Nat)
    (hf : flag i = false) (hbef : ∀ j, j < i → flag j = true) (hfuel : i < fuel)
    (ps : PersistState) (fsFail : List Char → Option FsError) (now : Int)
    (st : Store) (cap : List (List (List Nat)) × List Event) :
    processLoop flag fuel ps = iterSteps persistStep i ps ∧
    cleanupLoop fsFail now flag fuel st = iterSteps (cleanupStep fsFail now) i st ∧
    captureLoop flag fuel cap = iterSteps captureStep i cap := by
  refine ⟨?_, ?_, ?_⟩
  · exact whileRunnable_stops flag persistStep i fuel 0 ps (by simpa using hf)
      (fun j hj => by simpa using hbef j hj) hfuel
  · exact whileRunnable_stops flag (cleanupStep fsFail now) i fuel 0 st
      (by simpa using hf) (fun j hj => by simpa using hbef j hj) hfuel
  · exact whileRunnable_stops flag captureStep i fuel 0 cap (by simpa using hf)
      (fun j hj => by simpa using hbef j hj) hfuel

/-- Witness for C7: with the flag flipping at check 2 and fuel 4, all three
loops run exactly two iterations. -/
theorem c7_witness :
    processLoop c7Flag 4 ⟨[], ⟨1, []⟩⟩ = iterSteps persistStep 2 ⟨[], ⟨1, []⟩⟩ ∧
    cleanupLoop (fun _ => none) 0 c7Flag 4 ⟨1, []⟩
      = iterSteps (cleanupStep (fun _ => none) 0) 2 ⟨1, []⟩ ∧
    captureLoop c7Flag 4 ([], []) = iterSteps captureStep 2 ([], []) :=
  c7_loops_stop_on_flag c7Flag 2 4 (by decide) (by decide) (by decide)
    ⟨[], ⟨1, []⟩⟩ (fun _ => none) 0 ⟨1, []⟩ ([], [])

theorem pipeRun_invariant (acts : List PipeAct) :
    ∀ (sent : List Event) (q : List Event) (st : Store),
      st.rows.map content ++ q.map content = sent.map content →
      (pipeRun acts (sent, ⟨q, st⟩)).2.store.rows.map content ++
        (pipeRun acts (sent, ⟨q, st⟩)).2.queue.map content
        = (pipeRun acts (sent, ⟨q, st⟩)).1.map content := by
  induction acts with
  | nil =>
    intro sent q st h
    simpa [pipeRun] using h
  | cons a rest ih =>
    intro sent q st h
    cases a with
    | send e =>
      simp only [pipeRun]
      apply ih
      simp only [List.map_append, ← List.append_assoc, h]
    | drain =>
      simp only [pipeRun]
      cases q with
      | nil =>
        simp only [persistStep]
        exact ih sent [] st h
      | cons e q2 =>
        simp only [persistStep]
        apply ih
        simp only [Store.insert, List.map_append, List.map_cons, List.map_nil]
        rw [← h]
        simp [content]

/-- C8: over any interleaving of capture-callback sends and persistence-thread
drain iterations starting from an empty channel and an empty store, the rows
inserted into the store followed by the still-queued events equal, in order,
the log of events the capture callback sent: the channel delivers FIFO and the
store receives the events in exactly the capture order. -/
theorem c8_fifo_order (acts : List PipeAct) :
    (pipeRun acts ([], ⟨[], ⟨1, []⟩⟩)).2.store.rows.map content ++
      (pipeRun acts ([], ⟨[], ⟨1, []⟩⟩)).2.queue.map content
      = (pipeRun acts ([], ⟨[], ⟨1, []⟩⟩)).1.map content :=
  pipeRun_invariant acts [] [] ⟨1, []⟩ rfl
